import Mathlib

/-!
Shallow embedding of the sol-trade-router program (src/programs/dex/src/),
covering the selector dispatch (processor.rs), the fee-proxy rewriter
(instructions/pump.rs) and the admin configuration operations (processor.rs).

Machine integers are modelled as `Nat` with explicit `% 2 ^ 64` where the Rust
u64 multiplication can wrap (release-profile semantics of `amount * fee_rate`).
Bytes are `Fin 256`.  Fallible code returns a `RunResult`, whose `panicked`
constructor models a Rust panic (out-of-bounds slicing).  Cross-program
invocations (the system transfer and the forwarded venue call) are modelled by
an oracle `Env` giving each sub-call's outcome, and the effects a call issues
are recorded in order.
-/

namespace SolTradeRouter

/-- A byte, as stored in instruction data and account data. -/
abbrev Byte := Fin 256

/-- A 32-byte public key (solana_program::pubkey::Pubkey), modelled as its
byte list. -/
abbrev Pubkey := List Byte

/-- Embedding of solana_program::account_info::AccountInfo, restricted to the
fields the program reads: key, is_signer, is_writable, lamports, data. -/
structure AccountInfo where
  key : Pubkey
  is_signer : Bool
  is_writable : Bool
  lamports : Nat
  data : List Byte
deriving DecidableEq

/-- Embedding of solana_program::instruction::AccountMeta. -/
structure AccountMeta where
  pubkey : Pubkey
  is_signer : Bool
  is_writable : Bool
deriving DecidableEq

/-- Embedding of solana_program::instruction::Instruction. -/
structure Instruction where
  program_id : Pubkey
  accounts : List AccountMeta
  data : List Byte
deriving DecidableEq

/-- The ProgramError variants this program produces.  The spec's taxonomy maps
onto them as: MissingAuthorization = missingRequiredSignature, MalformedPayload
and UnknownOperation = invalidInstructionData, MalformedState = borshIoError,
RecipientMismatch = invalidAccountData, InsufficientFunds = insufficientFunds,
AuthorizationDenied = illegalOwner, NotEnoughAccountKeys from
next_account_info. -/
inductive ProgramError where
  | missingRequiredSignature
  | invalidInstructionData
  | invalidAccountData
  | insufficientFunds
  | illegalOwner
  | borshIoError
  | notEnoughAccountKeys
deriving DecidableEq

/-- An externally visible effect issued by a call: a native-asset (lamport)
transfer via the system program, or a forwarded cross-program instruction. -/
inductive Effect where
  | transfer (source dest : Pubkey) (lamports : Nat)
  | invokeIx (ix : Instruction)
deriving DecidableEq

/-- Result of running a handler: success with the ordered list of issued
effects (or a returned value), failure with a ProgramError, or a Rust panic.
`fail` and `panicked` carry the effects already issued before the abort. -/
inductive RunResult (α : Type) where
  | ok (value : α)
  | fail (e : ProgramError) (issued : List Effect)
  | panicked (issued : List Effect)
deriving DecidableEq

/-- Modelled from the spec (section 5, atomicity): the hosting execution
environment commits a call's effects only when the call succeeds; on any error
or abort, every effect already issued inside the call is rolled back, so no
partial state is observable outside the call.  This rollback is supplied by
the host, not by repository code. -/
def committedEffects : RunResult (List Effect) → List Effect
  | .ok effs => effs
  | .fail _ _ => []
  | .panicked _ => []

/-- Embedding of state.rs TradeFeeState: `fee_rate: u8`, `fee_wallet: Pubkey`. -/
structure TradeFeeState where
  fee_rate : Byte
  fee_wallet : Pubkey
deriving DecidableEq

/-- Borsh deserialization of TradeFeeState via try_from_slice, which is strict:
it consumes exactly one u8 and 32 bytes and rejects leftover input, so it
succeeds exactly on 33-byte buffers. -/
def TradeFeeState.tryFromSlice : List Byte → Option TradeFeeState
  | r :: rest => if rest.length = 32 then some ⟨r, rest⟩ else none
  | [] => none

/-- Borsh serialization of TradeFeeState: the fee_rate byte followed by the
32 wallet bytes. -/
def TradeFeeState.serializeBytes (s : TradeFeeState) : List Byte :=
  s.fee_rate :: s.fee_wallet

/-- Embedding of processor.rs ProtocolConfig: `protocol_fee_rate: u8`,
`protocol_fee_wallet: Pubkey`; same borsh layout as TradeFeeState. -/
structure ProtocolConfig where
  protocol_fee_rate : Byte
  protocol_fee_wallet : Pubkey
deriving DecidableEq

/-- Borsh deserialization of ProtocolConfig (strict, exactly 33 bytes). -/
def ProtocolConfig.tryFromSlice : List Byte → Option ProtocolConfig
  | r :: rest => if rest.length = 32 then some ⟨r, rest⟩ else none
  | [] => none

/-- Borsh serialization of ProtocolConfig. -/
def ProtocolConfig.serializeBytes (c : ProtocolConfig) : List Byte :=
  c.protocol_fee_rate :: c.protocol_fee_wallet

/-- Borsh serialization into a mutable byte buffer (`serialize(&mut &mut
data[..])`): writes the record at the front, keeps the remaining bytes, and
fails (io error mapped to borshIoError) when the buffer is too small. -/
def writeInto (buf bytes : List Byte) : Option (List Byte) :=
  if bytes.length ≤ buf.length then some (bytes ++ buf.drop bytes.length) else none

/-- u64::from_le_bytes on a byte list (little-endian). -/
def u64FromLeBytes (l : List Byte) : Nat :=
  l.foldr (fun b acc => b.val + 256 * acc) 0

/-- u64::to_le_bytes: the 8 little-endian bytes of `n % 2 ^ 64`. -/
def u64ToLeBytes (n : Nat) : List Byte :=
  (List.range 8).map fun i => ⟨n / 256 ^ i % 256, Nat.mod_lt _ (by decide)⟩

/-- The modulus 2 ^ 64 of Rust u64 arithmetic. -/
def U64_MOD : Nat := 2 ^ 64

/-- Embedding of pump.rs line 86, `(amount * trade_fee_config.fee_rate as u64)
/ 100`: the u64 multiplication wraps modulo 2 ^ 64 (release-profile overflow
semantics), then integer division by 100. -/
def wrappingFee (amount rate : Nat) : Nat := amount * rate % U64_MOD / 100

/-- u64::checked_sub. -/
def checkedSub (a b : Nat) : Option Nat := if b ≤ a then some (a - b) else none

/-- Outcomes of the two cross-program sub-calls a trade handler performs:
`none` means the sub-call succeeds, `some e` that it fails with `e`
(propagated unchanged by the `?` operator and by the trailing invoke). -/
structure Env where
  transferResult : Option ProgramError
  forwardResult : Option ProgramError
deriving DecidableEq

/-- Embedding of pump.rs process_with_fee (lines 48-133).  Account prefix
`[fee_account, system_program, fee_payer, fee_receiver]` is taken by
next_account_info (notEnoughAccountKeys when absent); then, in source order:
signer check, config deserialization, fee-receiver match, 8-byte length check,
wrapping fee computation, checked subtraction, balance check, fee transfer,
payload rebuild `selector ++ instruction_data[8..]`, the `data[8..16]`
overwrite (a Rust panic when the rebuilt payload is shorter than 16), and the
forwarded invoke on `accounts[4..]` with flags carried over. -/
def processWithFee (pid : Pubkey) (accounts : List AccountInfo)
    (instructionData : List Byte) (selector : List Byte) (env : Env) :
    RunResult (List Effect) :=
  match accounts with
  | feeAccount :: _systemProgram :: feePayer :: feeReceiver :: rest =>
    if !feePayer.is_signer then .fail .missingRequiredSignature []
    else
      match TradeFeeState.tryFromSlice feeAccount.data with
      | none => .fail .borshIoError []
      | some cfg =>
        if feeReceiver.key ≠ cfg.fee_wallet then .fail .invalidAccountData []
        else if instructionData.length < 8 then .fail .invalidInstructionData []
        else
          let amount := u64FromLeBytes (instructionData.take 8)
          let fee := wrappingFee amount cfg.fee_rate.val
          match checkedSub amount fee with
          | none => .fail .insufficientFunds []
          | some remaining =>
            if feePayer.lamports < fee then .fail .insufficientFunds []
            else
              match env.transferResult with
              | some e => .fail e []
              | none =>
                let issued := [Effect.transfer feePayer.key feeReceiver.key fee]
                let d0 := selector ++ instructionData.drop 8
                if d0.length < 16 then .panicked issued
                else
                  let d1 := d0.take 8 ++ u64ToLeBytes remaining ++ d0.drop 16
                  let ix : Instruction :=
                    { program_id := pid
                      accounts := rest.map fun a =>
                        { pubkey := a.key, is_signer := a.is_signer,
                          is_writable := a.is_writable }
                      data := d1 }
                  match env.forwardResult with
                  | some e => .fail e issued
                  | none => .ok (issued ++ [Effect.invokeIx ix])
  | _ => .fail .notEnoughAccountKeys []

/-- Dispatch opcode for pump buy (processor.rs line 20 via pump.rs,
PUMP_SELECTOR). -/
def PUMP_SELECTOR : List Byte := [82, 225, 119, 231, 78, 29, 45, 70]

/-- Dispatch opcode for pump AMM buy (PUMP_AMM_SELECTOR). -/
def PUMP_AMM_SELECTOR : List Byte := [129, 59, 179, 195, 110, 135, 61, 2]

/-- Dispatch opcode for pump sell (PUMP_SELL_SELECTOR). -/
def PUMP_SELL_SELECTOR : List Byte := [83, 225, 119, 231, 78, 29, 45, 70]

/-- Dispatch opcode for pump AMM sell (PUMP_AMM_SELL_SELECTOR). -/
def PUMP_AMM_SELL_SELECTOR : List Byte := [130, 59, 179, 195, 110, 135, 61, 2]

/-- Dispatch opcode for fee-wallet rotation, b"set_fee\x00"
(SET_PROTOCOL_FEE_WALLET_SELECTOR, processor.rs line 21). -/
def SET_PROTOCOL_FEE_WALLET_SELECTOR : List Byte := [115, 101, 116, 95, 102, 101, 101, 0]

/-- Modelled from the spec: ATA_SELECTOR is declared in
src/instructions/ata.rs, which is not under src/; its exact byte value is a
protocol constant (spec section 6).  Modelled as a placeholder distinct from
every other selector. -/
def ATA_SELECTOR : List Byte := [1, 0, 0, 0, 0, 0, 0, 0]

/-- Modelled from the spec: EXPIRED_SLOT_SELECTOR is declared in
src/instructions/slot.rs, which is not under src/; placeholder value, distinct
from every other selector. -/
def EXPIRED_SLOT_SELECTOR : List Byte := [2, 0, 0, 0, 0, 0, 0, 0]

/-- Modelled from the spec: RAYDIUM_BUY_SELECTOR is declared in
src/instructions/raydium.rs, which is not under src/; placeholder value,
distinct from every other selector. -/
def RAYDIUM_BUY_SELECTOR : List Byte := [3, 0, 0, 0, 0, 0, 0, 0]

/-- Modelled from the spec: RAYDIUM_SELL_SELECTOR is declared in
src/instructions/raydium.rs, which is not under src/; placeholder value,
distinct from every other selector. -/
def RAYDIUM_SELL_SELECTOR : List Byte := [4, 0, 0, 0, 0, 0, 0, 0]

/-- The operations the program defines.  The first nine are the handlers wired
into the SELECTORS table (processor.rs lines 23-50); `initConfig` tags
processor.rs initialize_config_account, which is defined but appears in no
table entry. -/
inductive Op where
  | pumpBuy
  | pumpAmmBuy
  | pumpSell
  | pumpAmmSell
  | createAta
  | expiredSlot
  | raydiumBuy
  | raydiumSell
  | setFeeWallet
  | initConfig
deriving DecidableEq

/-- Embedding of the SELECTORS table (processor.rs lines 23-50): nine entries
pairing an 8-byte opcode with the handler it invokes, in table order.  Each
handler body is embedded separately (processWithFee, setProtocolFeeWallet);
the table records which one an opcode selects. -/
def SELECTORS : List (List Byte × Op) :=
  [(PUMP_SELECTOR, .pumpBuy),
   (PUMP_AMM_SELECTOR, .pumpAmmBuy),
   (PUMP_SELL_SELECTOR, .pumpSell),
   (PUMP_AMM_SELL_SELECTOR, .pumpAmmSell),
   (ATA_SELECTOR, .createAta),
   (EXPIRED_SLOT_SELECTOR, .expiredSlot),
   (RAYDIUM_BUY_SELECTOR, .raydiumBuy),
   (RAYDIUM_SELL_SELECTOR, .raydiumSell),
   (SET_PROTOCOL_FEE_WALLET_SELECTOR, .setFeeWallet)]

/-- Embedding of processor.rs process_instruction (lines 52-66):
`instruction_data.split_at(8)` — a Rust panic when the data is shorter than
8 bytes — then a linear scan of SELECTORS for the first opcode equal to the
8-byte prefix, invoking its handler on the remaining bytes, and
Err(InvalidInstructionData) (the spec's UnknownOperation) when none matches.
The result records which handler is selected and the bytes passed to it. -/
def processInstruction (instructionData : List Byte) :
    RunResult (Op × List Byte) :=
  if instructionData.length < 8 then .panicked []
  else
    match SELECTORS.find? (fun p => p.1 == instructionData.take 8) with
    | some p => .ok (p.2, instructionData.drop 8)
    | none => .fail .invalidInstructionData []

/-- Embedding of processor.rs initialize_config_account (lines 76-96):
direct indexing of accounts[0] and accounts[1] (a Rust panic when fewer than
two accounts are supplied), admin signer check, then serialization of
`{protocol_fee_rate, protocol_fee_wallet = admin.key}` into the config
account's buffer, overwriting whatever was there. -/
def initConfigAccount (accounts : List AccountInfo) (protocolFeeRate : Byte) :
    RunResult (List Byte) :=
  match accounts with
  | configAccount :: admin :: _ =>
    if !admin.is_signer then .fail .missingRequiredSignature []
    else
      match writeInto configAccount.data
          (ProtocolConfig.serializeBytes ⟨protocolFeeRate, admin.key⟩) with
      | some newData => .ok newData
      | none => .fail .borshIoError []
  | _ => .panicked []

/-- Embedding of processor.rs set_protocol_fee_wallet (lines 99-132): 32-byte
payload length check, direct indexing of accounts[0] and accounts[1] (a Rust
panic when fewer than two accounts are supplied), admin signer check, config
deserialization, authority check against the stored wallet
(Err(IllegalOwner), the spec's AuthorizationDenied), then serialization of the
record with the wallet replaced by the first 32 payload bytes.  On success the
value is the config account's new byte content. -/
def setProtocolFeeWallet (accounts : List AccountInfo)
    (instructionData : List Byte) : RunResult (List Byte) :=
  if instructionData.length < 32 then .fail .invalidInstructionData []
  else
    match accounts with
    | configAccount :: adminAccount :: _ =>
      let newWallet := instructionData.take 32
      if !adminAccount.is_signer then .fail .missingRequiredSignature []
      else
        match ProtocolConfig.tryFromSlice configAccount.data with
        | none => .fail .borshIoError []
        | some cfg =>
          if adminAccount.key ≠ cfg.protocol_fee_wallet then .fail .illegalOwner []
          else
            match writeInto configAccount.data
                (ProtocolConfig.serializeBytes
                  { cfg with protocol_fee_wallet := newWallet }) with
            | some newData => .ok newData
            | none => .fail .borshIoError []
    | _ => .panicked []

/-! Helper lemmas characterizing each branch of processWithFee. -/

lemma u64FromLeBytes_lt (l : List Byte) : u64FromLeBytes l < 256 ^ l.length := by
  induction l with
  | nil => simp [u64FromLeBytes]
  | cons b t ih =>
    simp only [u64FromLeBytes, List.foldr_cons, List.length_cons] at *
    have hb := b.isLt
    have h1 : b.val + 256 * List.foldr (fun b acc => b.val + 256 * acc) 0 t <
        256 * (List.foldr (fun b acc => b.val + 256 * acc) 0 t + 1) := by omega
    have h2 : 256 * (List.foldr (fun b acc => b.val + 256 * acc) 0 t + 1) ≤
        256 * 256 ^ t.length := by
      exact Nat.mul_le_mul_left _ (by omega)
    calc b.val + 256 * List.foldr (fun b acc => b.val + 256 * acc) 0 t
        < 256 * 256 ^ t.length := lt_of_lt_of_le h1 h2
      _ = 256 ^ (t.length + 1) := by ring

lemma u64ToLeBytes_length (n : Nat) : (u64ToLeBytes n).length = 8 := by
  simp [u64ToLeBytes]

lemma wrappingFee_le (amount rate : Nat) (hr : rate ≤ 100) :
    wrappingFee amount rate ≤ amount := by
  unfold wrappingFee
  rcases lt_or_le (amount * rate) U64_MOD with h | h
  · rw [Nat.mod_eq_of_lt h]
    have h3 : amount * rate ≤ amount * 100 := Nat.mul_le_mul_left _ hr
    omega
  · have h1 : amount * rate % U64_MOD < U64_MOD :=
      Nat.mod_lt _ (by unfold U64_MOD; positivity)
    have h2 : amount * rate % U64_MOD / 100 * 100 ≤ amount * rate % U64_MOD :=
      Nat.div_mul_le_self _ _
    have h3 : amount * rate ≤ amount * 100 := Nat.mul_le_mul_left _ hr
    have h4 : amount * rate % U64_MOD / 100 * 100 < amount * 100 := by omega
    exact le_of_lt (lt_of_mul_lt_mul_right h4 (by omega))

lemma pwfNotSigner (pid : Pubkey) (a s p r : AccountInfo) (rest : List AccountInfo)
    (d sel : List Byte) (env : Env) (hsig : p.is_signer = false) :
    processWithFee pid (a :: s :: p :: r :: rest) d sel env =
      .fail .missingRequiredSignature [] := by
  simp [processWithFee, hsig]

lemma pwfBadConfig (pid : Pubkey) (a s p r : AccountInfo) (rest : List AccountInfo)
    (d sel : List Byte) (env : Env) (hsig : p.is_signer = true)
    (hde : TradeFeeState.tryFromSlice a.data = none) :
    processWithFee pid (a :: s :: p :: r :: rest) d sel env = .fail .borshIoError [] := by
  simp [processWithFee, hsig, hde]

lemma pwfBadReceiver (pid : Pubkey) (a s p r : AccountInfo) (rest : List AccountInfo)
    (d sel : List Byte) (env : Env) (cfg : TradeFeeState) (hsig : p.is_signer = true)
    (hde : TradeFeeState.tryFromSlice a.data = some cfg)
    (hrk : r.key ≠ cfg.fee_wallet) :
    processWithFee pid (a :: s :: p :: r :: rest) d sel env =
      .fail .invalidAccountData [] := by
  simp [processWithFee, hsig, hde, hrk]

lemma pwfShortPayload (pid : Pubkey) (a s p r : AccountInfo) (rest : List AccountInfo)
    (d sel : List Byte) (env : Env) (cfg : TradeFeeState) (hsig : p.is_signer = true)
    (hde : TradeFeeState.tryFromSlice a.data = some cfg)
    (hrk : r.key = cfg.fee_wallet) (hlen : d.length < 8) :
    processWithFee pid (a :: s :: p :: r :: rest) d sel env =
      .fail .invalidInstructionData [] := by
  simp [processWithFee, hsig, hde, hrk, hlen]

lemma pwfSubNone (pid : Pubkey) (a s p r : AccountInfo) (rest : List AccountInfo)
    (d sel : List Byte) (env : Env) (cfg : TradeFeeState) (hsig : p.is_signer = true)
    (hde : TradeFeeState.tryFromSlice a.data = some cfg)
    (hrk : r.key = cfg.fee_wallet) (hlen : ¬ d.length < 8)
    (hsub : checkedSub (u64FromLeBytes (d.take 8))
      (wrappingFee (u64FromLeBytes (d.take 8)) cfg.fee_rate.val) = none) :
    processWithFee pid (a :: s :: p :: r :: rest) d sel env =
      .fail .insufficientFunds [] := by
  simp [processWithFee, hsig, hde, hrk, hlen, hsub]

lemma pwfPoorPayer (pid : Pubkey) (a s p r : AccountInfo) (rest : List AccountInfo)
    (d sel : List Byte) (env : Env) (cfg : TradeFeeState) (rem : Nat)
    (hsig : p.is_signer = true)
    (hde : TradeFeeState.tryFromSlice a.data = some cfg)
    (hrk : r.key = cfg.fee_wallet) (hlen : ¬ d.length < 8)
    (hsub : checkedSub (u64FromLeBytes (d.take 8))
      (wrappingFee (u64FromLeBytes (d.take 8)) cfg.fee_rate.val) = some rem)
    (hbal : p.lamports < wrappingFee (u64FromLeBytes (d.take 8)) cfg.fee_rate.val) :
    processWithFee pid (a :: s :: p :: r :: rest) d sel env =
      .fail .insufficientFunds [] := by
  simp [processWithFee, hsig, hde, hrk, hlen, hsub, hbal]

lemma pwfTransferFails (pid : Pubkey) (a s p r : AccountInfo) (rest : List AccountInfo)
    (d sel : List Byte) (env : Env) (cfg : TradeFeeState) (rem : Nat) (e : ProgramError)
    (hsig : p.is_signer = true)
    (hde : TradeFeeState.tryFromSlice a.data = some cfg)
    (hrk : r.key = cfg.fee_wallet) (hlen : ¬ d.length < 8)
    (hsub : checkedSub (u64FromLeBytes (d.take 8))
      (wrappingFee (u64FromLeBytes (d.take 8)) cfg.fee_rate.val) = some rem)
    (hbal : ¬ p.lamports < wrappingFee (u64FromLeBytes (d.take 8)) cfg.fee_rate.val)
    (htr : env.transferResult = some e) :
    processWithFee pid (a :: s :: p :: r :: rest) d sel env = .fail e [] := by
  simp [processWithFee, hsig, hde, hrk, hlen, hsub, hbal, htr]

lemma pwfPanic (pid : Pubkey) (a s p r : AccountInfo) (rest : List AccountInfo)
    (d sel : List Byte) (env : Env) (cfg : TradeFeeState) (rem : Nat)
    (hsig : p.is_signer = true)
    (hde : TradeFeeState.tryFromSlice a.data = some cfg)
    (hrk : r.key = cfg.fee_wallet) (hlen : ¬ d.length < 8)
    (hsub : checkedSub (u64FromLeBytes (d.take 8))
      (wrappingFee (u64FromLeBytes (d.take 8)) cfg.fee_rate.val) = some rem)
    (hbal : ¬ p.lamports < wrappingFee (u64FromLeBytes (d.take 8)) cfg.fee_rate.val)
    (htr : env.transferResult = none)
    (h16 : (sel ++ d.drop 8).length < 16) :
    processWithFee pid (a :: s :: p :: r :: rest) d sel env =
      .panicked [Effect.transfer p.key r.key
        (wrappingFee (u64FromLeBytes (d.take 8)) cfg.fee_rate.val)] := by
  have h16' : sel.length + (d.length - 8) < 16 := by simpa using h16
  simp [processWithFee, hsig, hde, hrk, hlen, hsub, hbal, htr, h16']

lemma pwfForwardFails (pid : Pubkey) (a s p r : AccountInfo) (rest : List AccountInfo)
    (d sel : List Byte) (env : Env) (cfg : TradeFeeState) (rem : Nat) (e : ProgramError)
    (hsig : p.is_signer = true)
    (hde : TradeFeeState.tryFromSlice a.data = some cfg)
    (hrk : r.key = cfg.fee_wallet) (hlen : ¬ d.length < 8)
    (hsub : checkedSub (u64FromLeBytes (d.take 8))
      (wrappingFee (u64FromLeBytes (d.take 8)) cfg.fee_rate.val) = some rem)
    (hbal : ¬ p.lamports < wrappingFee (u64FromLeBytes (d.take 8)) cfg.fee_rate.val)
    (htr : env.transferResult = none)
    (h16 : ¬ (sel ++ d.drop 8).length < 16)
    (hfw : env.forwardResult = some e) :
    processWithFee pid (a :: s :: p :: r :: rest) d sel env =
      .fail e [Effect.transfer p.key r.key
        (wrappingFee (u64FromLeBytes (d.take 8)) cfg.fee_rate.val)] := by
  have h16' : ¬ sel.length + (d.length - 8) < 16 := by simpa using h16
  simp [processWithFee, hsig, hde, hrk, hlen, hsub, hbal, htr, h16', hfw]

lemma pwfOk (pid : Pubkey) (a s p r : AccountInfo) (rest : List AccountInfo)
    (d sel : List Byte) (env : Env) (cfg : TradeFeeState) (rem : Nat)
    (hsig : p.is_signer = true)
    (hde : TradeFeeState.tryFromSlice a.data = some cfg)
    (hrk : r.key = cfg.fee_wallet) (hlen : ¬ d.length < 8)
    (hsub : checkedSub (u64FromLeBytes (d.take 8))
      (wrappingFee (u64FromLeBytes (d.take 8)) cfg.fee_rate.val) = some rem)
    (hbal : ¬ p.lamports < wrappingFee (u64FromLeBytes (d.take 8)) cfg.fee_rate.val)
    (htr : env.transferResult = none)
    (h16 : ¬ (sel ++ d.drop 8).length < 16)
    (hfw : env.forwardResult = none) :
    processWithFee pid (a :: s :: p :: r :: rest) d sel env =
      .ok [Effect.transfer p.key r.key
            (wrappingFee (u64FromLeBytes (d.take 8)) cfg.fee_rate.val),
          Effect.invokeIx
            { program_id := pid
              accounts := rest.map fun x =>
                { pubkey := x.key, is_signer := x.is_signer,
                  is_writable := x.is_writable }
              data := (sel ++ d.drop 8).take 8 ++ u64ToLeBytes rem ++
                (sel ++ d.drop 8).drop 16 }] := by
  have h16' : ¬ sel.length + (d.length - 8) < 16 := by simpa using h16
  simp [processWithFee, hsig, hde, hrk, hlen, hsub, hbal, htr, h16', hfw]

lemma pwfOkInv (pid : Pubkey) (a s p r : AccountInfo) (rest : List AccountInfo)
    (d sel : List Byte) (env : Env) (effs : List Effect)
    (h : processWithFee pid (a :: s :: p :: r :: rest) d sel env = .ok effs) :
    ∃ cfg rem, p.is_signer = true ∧
      TradeFeeState.tryFromSlice a.data = some cfg ∧
      r.key = cfg.fee_wallet ∧ ¬ d.length < 8 ∧
      checkedSub (u64FromLeBytes (d.take 8))
        (wrappingFee (u64FromLeBytes (d.take 8)) cfg.fee_rate.val) = some rem ∧
      ¬ p.lamports < wrappingFee (u64FromLeBytes (d.take 8)) cfg.fee_rate.val ∧
      env.transferResult = none ∧
      ¬ (sel ++ d.drop 8).length < 16 ∧
      env.forwardResult = none ∧
      effs = [Effect.transfer p.key r.key
                (wrappingFee (u64FromLeBytes (d.take 8)) cfg.fee_rate.val),
              Effect.invokeIx
                { program_id := pid
                  accounts := rest.map fun x =>
                    { pubkey := x.key, is_signer := x.is_signer,
                      is_writable := x.is_writable }
                  data := (sel ++ d.drop 8).take 8 ++ u64ToLeBytes rem ++
                    (sel ++ d.drop 8).drop 16 }] := by
  by_cases hsig : p.is_signer = true
  case neg =>
    rw [pwfNotSigner pid a s p r rest d sel env (by simpa using hsig)] at h
    exact absurd h (by simp)
  cases hde : TradeFeeState.tryFromSlice a.data with
  | none =>
    rw [pwfBadConfig pid a s p r rest d sel env hsig hde] at h
    exact absurd h (by simp)
  | some cfg =>
  by_cases hrk : r.key = cfg.fee_wallet
  case neg =>
    rw [pwfBadReceiver pid a s p r rest d sel env cfg hsig hde hrk] at h
    exact absurd h (by simp)
  by_cases hlen : d.length < 8
  case pos =>
    rw [pwfShortPayload pid a s p r rest d sel env cfg hsig hde hrk hlen] at h
    exact absurd h (by simp)
  cases hsub : checkedSub (u64FromLeBytes (d.take 8))
      (wrappingFee (u64FromLeBytes (d.take 8)) cfg.fee_rate.val) with
  | none =>
    rw [pwfSubNone pid a s p r rest d sel env cfg hsig hde hrk hlen hsub] at h
    exact absurd h (by simp)
  | some rem =>
  by_cases hbal : p.lamports < wrappingFee (u64FromLeBytes (d.take 8)) cfg.fee_rate.val
  case pos =>
    rw [pwfPoorPayer pid a s p r rest d sel env cfg rem hsig hde hrk hlen hsub hbal] at h
    exact absurd h (by simp)
  cases htr : env.transferResult with
  | some e =>
    rw [pwfTransferFails pid a s p r rest d sel env cfg rem e hsig hde hrk hlen hsub
      hbal htr] at h
    exact absurd h (by simp)
  | none =>
  by_cases h16 : (sel ++ d.drop 8).length < 16
  case pos =>
    rw [pwfPanic pid a s p r rest d sel env cfg rem hsig hde hrk hlen hsub hbal htr
      h16] at h
    exact absurd h (by simp)
  cases hfw : env.forwardResult with
  | some e =>
    rw [pwfForwardFails pid a s p r rest d sel env cfg rem e hsig hde hrk hlen hsub
      hbal htr h16 hfw] at h
    exact absurd h (by simp)
  | none =>
    rw [pwfOk pid a s p r rest d sel env cfg rem hsig hde hrk hlen hsub hbal htr
      h16 hfw] at h
    refine ⟨cfg, rem, hsig, rfl, hrk, hlen, hsub, hbal, rfl, h16, rfl, ?_⟩
    injection h with h'
    exact h'.symm

lemma cfgFromSlice_inv (dta : List Byte) (cfg : ProtocolConfig)
    (h : ProtocolConfig.tryFromSlice dta = some cfg) :
    dta = cfg.protocol_fee_rate :: cfg.protocol_fee_wallet ∧
      cfg.protocol_fee_wallet.length = 32 := by
  cases dta with
  | nil => simp [ProtocolConfig.tryFromSlice] at h
  | cons b t =>
    simp only [ProtocolConfig.tryFromSlice] at h
    by_cases ht : t.length = 32
    · rw [if_pos ht] at h
      cases h
      exact ⟨rfl, ht⟩
    · rw [if_neg ht] at h
      exact absurd h (by simp)

lemma spfwShortPayload (c ad : AccountInfo) (rest : List AccountInfo)
    (payload : List Byte) (hlen : payload.length < 32) :
    setProtocolFeeWallet (c :: ad :: rest) payload =
      .fail .invalidInstructionData [] := by
  simp [setProtocolFeeWallet, hlen]

lemma spfwNotSigner (c ad : AccountInfo) (rest : List AccountInfo)
    (payload : List Byte) (hlen : ¬ payload.length < 32)
    (hsig : ad.is_signer = false) :
    setProtocolFeeWallet (c :: ad :: rest) payload =
      .fail .missingRequiredSignature [] := by
  simp [setProtocolFeeWallet, hlen, hsig]

lemma spfwBadConfig (c ad : AccountInfo) (rest : List AccountInfo)
    (payload : List Byte) (hlen : ¬ payload.length < 32)
    (hsig : ad.is_signer = true)
    (hde : ProtocolConfig.tryFromSlice c.data = none) :
    setProtocolFeeWallet (c :: ad :: rest) payload = .fail .borshIoError [] := by
  simp [setProtocolFeeWallet, hlen, hsig, hde]

lemma spfwNotAdmin (c ad : AccountInfo) (rest : List AccountInfo)
    (payload : List Byte) (cfg : ProtocolConfig) (hlen : ¬ payload.length < 32)
    (hsig : ad.is_signer = true)
    (hde : ProtocolConfig.tryFromSlice c.data = some cfg)
    (hkey : ad.key ≠ cfg.protocol_fee_wallet) :
    setProtocolFeeWallet (c :: ad :: rest) payload = .fail .illegalOwner [] := by
  simp [setProtocolFeeWallet, hlen, hsig, hde, hkey]

lemma spfwOk (c ad : AccountInfo) (rest : List AccountInfo)
    (payload : List Byte) (cfg : ProtocolConfig) (hlen : ¬ payload.length < 32)
    (hsig : ad.is_signer = true)
    (hde : ProtocolConfig.tryFromSlice c.data = some cfg)
    (hkey : ad.key = cfg.protocol_fee_wallet) :
    setProtocolFeeWallet (c :: ad :: rest) payload =
      .ok (cfg.protocol_fee_rate :: payload.take 32) := by
  obtain ⟨hdata, hwal⟩ := cfgFromSlice_inv c.data cfg hde
  have hbuf : c.data.length = 33 := by rw [hdata]; simp [hwal]
  have htk : (payload.take 32).length = 32 := by
    simp [List.length_take]; omega
  have hw : writeInto c.data
      (ProtocolConfig.serializeBytes { cfg with protocol_fee_wallet := payload.take 32 }) =
      some (cfg.protocol_fee_rate :: payload.take 32) := by
    unfold writeInto ProtocolConfig.serializeBytes
    rw [if_pos (by simp [htk, hbuf])]
    have hdrop : c.data.drop 33 = [] := List.drop_eq_nil_of_le (by omega)
    simp [htk, hdrop]
  simp [setProtocolFeeWallet, hlen, hsig, hde, hkey, hw]

/-! Claim theorems. -/

/-- C1, counterexample: the claim asserts that for every amount below 2 ^ 64
and fee_rate up to 100 the computed fee is floor(amount * fee_rate / 100) with
never-wrapping arithmetic; at amount = 2 ^ 63 and fee_rate = 100 the u64
product wraps to 0, so the computed fee is 0 instead of 2 ^ 63. -/
theorem c1_counterexample :
    wrappingFee (2 ^ 63) 100 ≠ 2 ^ 63 * 100 / 100 := by decide

/-- C1, amended: whenever amount * fee_rate fits in a u64 (in particular for
all amount < 2 ^ 64 / fee_rate) and fee_rate ≤ 100, the fee computed by the
fee-proxy rewriter equals floor(amount * fee_rate / 100), the checked
subtraction producing `remaining` succeeds, and fee + remaining = amount; when
the product exceeds the u64 range the multiplication wraps instead. -/
theorem c1_fee_arithmetic (amount rate : Nat) (hprod : amount * rate < U64_MOD)
    (hr : rate ≤ 100) :
    wrappingFee amount rate = amount * rate / 100 ∧
    checkedSub amount (wrappingFee amount rate) =
      some (amount - wrappingFee amount rate) ∧
    wrappingFee amount rate + (amount - wrappingFee amount rate) = amount := by
  have hfee : wrappingFee amount rate = amount * rate / 100 := by
    unfold wrappingFee
    rw [Nat.mod_eq_of_lt hprod]
  have hle : wrappingFee amount rate ≤ amount := by
    rw [hfee]
    have h3 : amount * rate ≤ amount * 100 := Nat.mul_le_mul_left _ hr
    omega
  refine ⟨hfee, ?_, by omega⟩
  unfold checkedSub
  rw [if_pos hle]

/-- C1 witness: the spec's own scenario, amount = 1000000 and fee_rate = 5,
giving fee = 50000 and remaining = 950000. -/
theorem c1_fee_arithmetic_witness :
    wrappingFee 1000000 5 = 1000000 * 5 / 100 ∧
    checkedSub 1000000 (wrappingFee 1000000 5) =
      some (1000000 - wrappingFee 1000000 5) ∧
    wrappingFee 1000000 5 + (1000000 - wrappingFee 1000000 5) = 1000000 :=
  c1_fee_arithmetic 1000000 5 (by decide) (by decide)

/-- C10: for every incoming instruction whose data is shorter than 8 bytes,
the dispatch entry point panics at instruction_data.split_at(8) rather than
returning UnknownOperation or any error code. -/
theorem c10_short_dispatch_panics (d : List Byte) (h : d.length < 8) :
    processInstruction d = .panicked [] := by
  unfold processInstruction
  rw [if_pos h]

/-- C10 witness: the empty instruction data panics. -/
theorem c10_short_dispatch_panics_witness :
    processInstruction [] = .panicked [] :=
  c10_short_dispatch_panics [] (by decide)

/-- C7: initialize_config_account requires the admin to be a signer (else
MissingAuthorization) and then writes {fee_rate = the supplied value,
fee_wallet = the admin's identity} over the config account's previous
contents, whatever they were, with no prior-state check; in particular on a
standard 33-byte config account the stored record becomes exactly that pair. -/
theorem c7_init_config (configAccount admin : AccountInfo)
    (rest : List AccountInfo) (rate : Byte) :
    (admin.is_signer = false →
      initConfigAccount (configAccount :: admin :: rest) rate =
        .fail .missingRequiredSignature []) ∧
    (admin.is_signer = true → admin.key.length = 32 →
      33 ≤ configAccount.data.length →
      initConfigAccount (configAccount :: admin :: rest) rate =
        .ok ((rate :: admin.key) ++ configAccount.data.drop 33)) ∧
    (admin.is_signer = true → admin.key.length = 32 →
      configAccount.data.length = 33 →
      initConfigAccount (configAccount :: admin :: rest) rate =
        .ok (rate :: admin.key) ∧
      ProtocolConfig.tryFromSlice (rate :: admin.key) = some ⟨rate, admin.key⟩) := by
  refine ⟨?_, ?_, ?_⟩
  · intro hsig
    simp [initConfigAccount, hsig]
  · intro hsig hkey hbuf
    have hw : writeInto configAccount.data
        (ProtocolConfig.serializeBytes ⟨rate, admin.key⟩) =
        some ((rate :: admin.key) ++ configAccount.data.drop 33) := by
      unfold writeInto ProtocolConfig.serializeBytes
      rw [if_pos (by simp [hkey]; omega)]
      simp [hkey]
    simp [initConfigAccount, hsig, hw]
  · intro hsig hkey hbuf
    have hdrop : configAccount.data.drop 33 = [] :=
      List.drop_eq_nil_of_le (by omega)
    have hw : writeInto configAccount.data
        (ProtocolConfig.serializeBytes ⟨rate, admin.key⟩) =
        some (rate :: admin.key) := by
      unfold writeInto ProtocolConfig.serializeBytes
      rw [if_pos (by simp [hkey]; omega)]
      simp [hkey, hdrop]
    refine ⟨by simp [initConfigAccount, hsig, hw], ?_⟩
    simp [ProtocolConfig.tryFromSlice, hkey]

/-- C7 witness: a signing admin with key 32 × 2 over a 33-byte config account
previously holding rate 9 and wallet 32 × 7 ends with rate 5 and the admin's
own key stored, the prior contents overwritten. -/
theorem c7_init_config_witness :
    initConfigAccount
      [⟨List.replicate 32 0, false, true, 0, (9 : Byte) :: List.replicate 32 7⟩,
       ⟨List.replicate 32 2, true, true, 0, []⟩] 5 =
      .ok ((5 : Byte) :: List.replicate 32 2) ∧
    ProtocolConfig.tryFromSlice ((5 : Byte) :: List.replicate 32 2) =
      some ⟨5, List.replicate 32 2⟩ :=
  (c7_init_config ⟨List.replicate 32 0, false, true, 0, (9 : Byte) :: List.replicate 32 7⟩
    ⟨List.replicate 32 2, true, true, 0, []⟩ [] 5).2.2 (by decide) (by decide) (by decide)

/-- C2, counterexample: the claim states that initialize-config is reachable
through some opcode, but no SELECTORS entry invokes
initialize_config_account, so the dispatch never selects it for any
instruction data. -/
theorem c2_counterexample :
    ¬ ∃ data rest, processInstruction data = .ok (Op.initConfig, rest) := by
  rintro ⟨data, rest, h⟩
  unfold processInstruction at h
  by_cases hlen : data.length < 8
  · rw [if_pos hlen] at h
    exact absurd h (by simp)
  · rw [if_neg hlen] at h
    cases hfind : SELECTORS.find? (fun p => p.1 == data.take 8) with
    | some p =>
      rw [hfind] at h
      have hp : p ∈ SELECTORS := List.mem_of_find?_eq_some hfind
      have hmem : p.2 ∈ SELECTORS.map Prod.snd := List.mem_map_of_mem Prod.snd hp
      injection h with h'
      rw [(Prod.mk.injEq _ _ _ _ ▸ h' : p.2 = Op.initConfig ∧ _).1] at hmem
      exact absurd hmem (by decide)
    | none =>
      rw [hfind] at h
      exact absurd h (by simp)

/-- C2, amended: the dispatch, given instruction data of at least 8 bytes,
matches the 8-byte opcode against the table by exact byte equality; the
dispatchable operations are exactly the nine entries {pump buy, pump AMM buy,
pump sell, pump AMM sell, create-associated-account, check-expiry, raydium
buy, raydium sell, rotate-fee-wallet} — initialize-config is not among them —
no two distinct operations share an opcode, and any opcode outside the table
fails with UnknownOperation (InvalidInstructionData). -/
theorem c2_dispatch_closed (data : List Byte) (h8 : 8 ≤ data.length) :
    (SELECTORS.map Prod.fst).Pairwise (· ≠ ·) ∧
    SELECTORS.map Prod.snd =
      [Op.pumpBuy, Op.pumpAmmBuy, Op.pumpSell, Op.pumpAmmSell, Op.createAta,
       Op.expiredSlot, Op.raydiumBuy, Op.raydiumSell, Op.setFeeWallet] ∧
    Op.initConfig ∉ SELECTORS.map Prod.snd ∧
    ((∃ p ∈ SELECTORS, data.take 8 = p.1 ∧
        processInstruction data = .ok (p.2, data.drop 8)) ∨
      ((∀ p ∈ SELECTORS, data.take 8 ≠ p.1) ∧
        processInstruction data = .fail .invalidInstructionData [])) := by
  refine ⟨by decide, by decide, by decide, ?_⟩
  unfold processInstruction
  rw [if_neg (by omega)]
  cases hfind : SELECTORS.find? (fun p => p.1 == data.take 8) with
  | some p =>
    left
    refine ⟨p, List.mem_of_find?_eq_some hfind, ?_, rfl⟩
    have hpred := List.find?_some hfind
    simp only [beq_iff_eq] at hpred
    exact hpred.symm
  | none =>
    right
    refine ⟨?_, rfl⟩
    intro p hp heq
    have hnone := List.find?_eq_none.mp hfind p hp
    simp [heq] at hnone

/-- C2 witness: the pump-buy opcode itself, an 8-byte instruction, is
dispatched to the pump-buy handler. -/
theorem c2_dispatch_closed_witness :
    (SELECTORS.map Prod.fst).Pairwise (· ≠ ·) ∧
    SELECTORS.map Prod.snd =
      [Op.pumpBuy, Op.pumpAmmBuy, Op.pumpSell, Op.pumpAmmSell, Op.createAta,
       Op.expiredSlot, Op.raydiumBuy, Op.raydiumSell, Op.setFeeWallet] ∧
    Op.initConfig ∉ SELECTORS.map Prod.snd ∧
    ((∃ p ∈ SELECTORS, PUMP_SELECTOR.take 8 = p.1 ∧
        processInstruction PUMP_SELECTOR = .ok (p.2, PUMP_SELECTOR.drop 8)) ∨
      ((∀ p ∈ SELECTORS, PUMP_SELECTOR.take 8 ≠ p.1) ∧
        processInstruction PUMP_SELECTOR = .fail .invalidInstructionData [])) :=
  c2_dispatch_closed PUMP_SELECTOR (by decide)

/-- C4: the fee-proxy rewriter checks its preconditions in the source order —
fee_payer signer (MissingAuthorization), config deserializes (MalformedState),
fee_receiver equals the configured wallet (RecipientMismatch), payload length
at least 8 (MalformedPayload), fee_payer balance at least fee
(InsufficientFunds) — and each failure returns that error with an empty
effect list: no fee transfer and no forwarded invocation. -/
theorem c4_precondition_order (pid : Pubkey) (a s p r : AccountInfo)
    (rest : List AccountInfo) (d sel : List Byte) (env : Env) :
    (p.is_signer = false →
      processWithFee pid (a :: s :: p :: r :: rest) d sel env =
        .fail .missingRequiredSignature []) ∧
    (p.is_signer = true → TradeFeeState.tryFromSlice a.data = none →
      processWithFee pid (a :: s :: p :: r :: rest) d sel env =
        .fail .borshIoError []) ∧
    (∀ cfg, p.is_signer = true → TradeFeeState.tryFromSlice a.data = some cfg →
      r.key ≠ cfg.fee_wallet →
      processWithFee pid (a :: s :: p :: r :: rest) d sel env =
        .fail .invalidAccountData []) ∧
    (∀ cfg, p.is_signer = true → TradeFeeState.tryFromSlice a.data = some cfg →
      r.key = cfg.fee_wallet → d.length < 8 →
      processWithFee pid (a :: s :: p :: r :: rest) d sel env =
        .fail .invalidInstructionData []) ∧
    (∀ cfg, p.is_signer = true → TradeFeeState.tryFromSlice a.data = some cfg →
      r.key = cfg.fee_wallet → 8 ≤ d.length →
      p.lamports < wrappingFee (u64FromLeBytes (d.take 8)) cfg.fee_rate.val →
      processWithFee pid (a :: s :: p :: r :: rest) d sel env =
        .fail .insufficientFunds []) := by
  refine ⟨?_, ?_, ?_, ?_, ?_⟩
  · intro hsig
    exact pwfNotSigner pid a s p r rest d sel env hsig
  · intro hsig hde
    exact pwfBadConfig pid a s p r rest d sel env hsig hde
  · intro cfg hsig hde hrk
    exact pwfBadReceiver pid a s p r rest d sel env cfg hsig hde hrk
  · intro cfg hsig hde hrk hlen
    exact pwfShortPayload pid a s p r rest d sel env cfg hsig hde hrk hlen
  · intro cfg hsig hde hrk hlen hbal
    cases hsub : checkedSub (u64FromLeBytes (d.take 8))
        (wrappingFee (u64FromLeBytes (d.take 8)) cfg.fee_rate.val) with
    | none =>
      exact pwfSubNone pid a s p r rest d sel env cfg hsig hde hrk (by omega) hsub
    | some rem =>
      exact pwfPoorPayer pid a s p r rest d sel env cfg rem hsig hde hrk (by omega)
        hsub hbal

/-- C4 witness: the spec's InsufficientFunds scenario — all earlier checks
pass, the required fee is 50000 but the payer holds only 40000, and the call
fails with InsufficientFunds having issued no effect. -/
theorem c4_precondition_order_witness :
    processWithFee (List.replicate 32 9)
      [⟨List.replicate 32 0, false, true, 0, (5 : Byte) :: List.replicate 32 2⟩,
       ⟨List.replicate 32 1, false, false, 0, []⟩,
       ⟨List.replicate 32 3, true, true, 40000, []⟩,
       ⟨List.replicate 32 2, false, true, 0, []⟩]
      [64, 66, 15, 0, 0, 0, 0, 0, 1, 2, 3, 4, 5, 6, 7, 8]
      [102, 6, 61, 18, 1, 218, 235, 234] ⟨none, none⟩ =
      .fail .insufficientFunds [] :=
  (c4_precondition_order (List.replicate 32 9)
    ⟨List.replicate 32 0, false, true, 0, (5 : Byte) :: List.replicate 32 2⟩
    ⟨List.replicate 32 1, false, false, 0, []⟩
    ⟨List.replicate 32 3, true, true, 40000, []⟩
    ⟨List.replicate 32 2, false, true, 0, []⟩ []
    [64, 66, 15, 0, 0, 0, 0, 0, 1, 2, 3, 4, 5, 6, 7, 8]
    [102, 6, 61, 18, 1, 218, 235, 234] ⟨none, none⟩).2.2.2.2
    ⟨5, List.replicate 32 2⟩ (by decide) (by decide) (by decide) (by decide) (by decide)

/-- C3: every successful trade call forwards an instruction whose payload is
the venue selector followed by the original trailing bytes with bytes [8:16)
overwritten by `remaining` in little-endian, every other trailing byte
unchanged, whose total length equals the opcode-stripped payload length, and
whose account list is the inbound accounts after the 4-account prefix in the
same order with the original signer and writable flags. -/
theorem c3_forwarded_instruction (pid : Pubkey) (a s p r : AccountInfo)
    (rest : List AccountInfo) (d sel : List Byte) (env : Env) (effs : List Effect)
    (hsel : sel.length = 8)
    (h : processWithFee pid (a :: s :: p :: r :: rest) d sel env = .ok effs) :
    ∃ cfg, TradeFeeState.tryFromSlice a.data = some cfg ∧ 16 ≤ d.length ∧
      effs = [Effect.transfer p.key r.key
                (wrappingFee (u64FromLeBytes (d.take 8)) cfg.fee_rate.val),
              Effect.invokeIx
                { program_id := pid
                  accounts := rest.map fun x =>
                    { pubkey := x.key, is_signer := x.is_signer,
                      is_writable := x.is_writable }
                  data := sel ++ u64ToLeBytes (u64FromLeBytes (d.take 8) -
                      wrappingFee (u64FromLeBytes (d.take 8)) cfg.fee_rate.val) ++
                    d.drop 16 }] ∧
      (sel ++ u64ToLeBytes (u64FromLeBytes (d.take 8) -
          wrappingFee (u64FromLeBytes (d.take 8)) cfg.fee_rate.val) ++
        d.drop 16).length = d.length := by
  obtain ⟨cfg, rem, hsig, hde, hrk, hlen, hsub, hbal, htr, h16, hfw, heffs⟩ :=
    pwfOkInv pid a s p r rest d sel env effs h
  have hd16 : 16 ≤ d.length := by
    simp only [List.length_append, List.length_drop, hsel] at h16
    omega
  have hrem : rem = u64FromLeBytes (d.take 8) -
      wrappingFee (u64FromLeBytes (d.take 8)) cfg.fee_rate.val := by
    unfold checkedSub at hsub
    split at hsub
    · injection hsub with h''
      exact h''.symm
    · exact absurd hsub (by simp)
  have htake : (sel ++ d.drop 8).take 8 = sel := List.take_left' hsel
  have hdrop : (sel ++ d.drop 8).drop 16 = d.drop 16 := by
    rw [show (16 : Nat) = sel.length + 8 by omega, List.drop_append,
      List.drop_drop, hsel]
  refine ⟨cfg, hde, hd16, ?_, ?_⟩
  · rw [heffs, htake, hdrop, hrem]
  · simp only [List.length_append, u64ToLeBytes_length, List.length_drop, hsel]
    omega

/-- C3 witness: amount = 1000000, fee_rate = 5, a 16-byte payload; the
forwarded instruction carries the venue selector, remaining = 950000 in
little-endian at bytes [8:16), the venue account with its flags, and the
payload length is unchanged. -/
theorem c3_forwarded_instruction_witness :
    ∃ cfg, TradeFeeState.tryFromSlice ((5 : Byte) :: List.replicate 32 2) =
        some cfg ∧
      16 ≤ ([64, 66, 15, 0, 0, 0, 0, 0, 1, 2, 3, 4, 5, 6, 7, 8] : List Byte).length ∧
      ([Effect.transfer (List.replicate 32 3) (List.replicate 32 2) 50000,
        Effect.invokeIx
          { program_id := List.replicate 32 9
            accounts := [⟨List.replicate 32 7, false, true⟩]
            data := [102, 6, 61, 18, 1, 218, 235, 234,
                     240, 126, 14, 0, 0, 0, 0, 0] }] : List Effect) =
        [Effect.transfer (List.replicate 32 3) (List.replicate 32 2)
            (wrappingFee (u64FromLeBytes (([64, 66, 15, 0, 0, 0, 0, 0, 1, 2, 3, 4, 5, 6, 7, 8] : List Byte).take 8)) cfg.fee_rate.val),
          Effect.invokeIx
            { program_id := List.replicate 32 9
              accounts := [⟨List.replicate 32 7, false, true⟩]
              data := [102, 6, 61, 18, 1, 218, 235, 234] ++
                 u64ToLeBytes (u64FromLeBytes (([64, 66, 15, 0, 0, 0, 0, 0, 1, 2, 3, 4, 5, 6, 7, 8] : List Byte).take 8) -
                   wrappingFee (u64FromLeBytes (([64, 66, 15, 0, 0, 0, 0, 0, 1, 2, 3, 4, 5, 6, 7, 8] : List Byte).take 8)) cfg.fee_rate.val) ++
                 ([64, 66, 15, 0, 0, 0, 0, 0, 1, 2, 3, 4, 5, 6, 7, 8] : List Byte).drop 16 }] ∧
      ([102, 6, 61, 18, 1, 218, 235, 234] ++
          u64ToLeBytes (u64FromLeBytes (([64, 66, 15, 0, 0, 0, 0, 0, 1, 2, 3, 4, 5, 6, 7, 8] : List Byte).take 8) -
            wrappingFee (u64FromLeBytes (([64, 66, 15, 0, 0, 0, 0, 0, 1, 2, 3, 4, 5, 6, 7, 8] : List Byte).take 8)) cfg.fee_rate.val) ++
        ([64, 66, 15, 0, 0, 0, 0, 0, 1, 2, 3, 4, 5, 6, 7, 8] : List Byte).drop 16).length = ([64, 66, 15, 0, 0, 0, 0, 0, 1, 2, 3, 4, 5, 6, 7, 8] : List Byte).length :=
  c3_forwarded_instruction (List.replicate 32 9)
    ⟨List.replicate 32 0, false, true, 0, (5 : Byte) :: List.replicate 32 2⟩
    ⟨List.replicate 32 1, false, false, 0, []⟩
    ⟨List.replicate 32 3, true, true, 60000, []⟩
    ⟨List.replicate 32 2, false, true, 0, []⟩
    [⟨List.replicate 32 7, false, true, 0, []⟩]
    [64, 66, 15, 0, 0, 0, 0, 0, 1, 2, 3, 4, 5, 6, 7, 8]
    [102, 6, 61, 18, 1, 218, 235, 234] ⟨none, none⟩
    [Effect.transfer (List.replicate 32 3) (List.replicate 32 2) 50000,
     Effect.invokeIx
       { program_id := List.replicate 32 9
         accounts := [⟨List.replicate 32 7, false, true⟩]
         data := [102, 6, 61, 18, 1, 218, 235, 234,
                  240, 126, 14, 0, 0, 0, 0, 0] }]
    (by decide) (by decide)

/-- C6: in every trade call whose forwarded venue invocation fails while the
fee transfer sub-call succeeded, the whole call fails — it never returns
success — and under the host's transactional rollback no effect, in
particular not the already-issued fee transfer, remains applied: the
committed effect list is empty. -/
theorem c6_fee_rolled_back (pid : Pubkey) (accounts : List AccountInfo)
    (d sel : List Byte) (env : Env) (e : ProgramError)
    (htr : env.transferResult = none) (hfw : env.forwardResult = some e) :
    (∀ effs, processWithFee pid accounts d sel env ≠ .ok effs) ∧
    committedEffects (processWithFee pid accounts d sel env) = [] := by
  have hnotok : ∀ effs, processWithFee pid accounts d sel env ≠ .ok effs := by
    intro effs h
    match accounts with
    | [] => simp [processWithFee] at h
    | [a] => simp [processWithFee] at h
    | [a, s] => simp [processWithFee] at h
    | [a, s, p] => simp [processWithFee] at h
    | a :: s :: p :: r :: rest =>
      obtain ⟨cfg, rem, -, -, -, -, -, -, -, -, hfw', -⟩ :=
        pwfOkInv pid a s p r rest d sel env effs h
      rw [hfw] at hfw'
      exact absurd hfw' (by simp)
  refine ⟨hnotok, ?_⟩
  cases hrr : processWithFee pid accounts d sel env with
  | ok effs => exact absurd hrr (hnotok effs)
  | fail _ _ => simp [committedEffects]
  | panicked _ => simp [committedEffects]

/-- C6 witness: a call in which every check passes and the transfer sub-call
succeeds but the forwarded invocation fails never returns success, and its
committed effects are empty. -/
theorem c6_fee_rolled_back_witness :
    (∀ effs, processWithFee (List.replicate 32 9)
      [⟨List.replicate 32 0, false, true, 0, (5 : Byte) :: List.replicate 32 2⟩,
       ⟨List.replicate 32 1, false, false, 0, []⟩,
       ⟨List.replicate 32 3, true, true, 60000, []⟩,
       ⟨List.replicate 32 2, false, true, 0, []⟩,
       ⟨List.replicate 32 7, false, true, 0, []⟩]
      [64, 66, 15, 0, 0, 0, 0, 0, 1, 2, 3, 4, 5, 6, 7, 8]
      [102, 6, 61, 18, 1, 218, 235, 234]
      ⟨none, some .invalidAccountData⟩ ≠ .ok effs) ∧
    committedEffects (processWithFee (List.replicate 32 9)
      [⟨List.replicate 32 0, false, true, 0, (5 : Byte) :: List.replicate 32 2⟩,
       ⟨List.replicate 32 1, false, false, 0, []⟩,
       ⟨List.replicate 32 3, true, true, 60000, []⟩,
       ⟨List.replicate 32 2, false, true, 0, []⟩,
       ⟨List.replicate 32 7, false, true, 0, []⟩]
      [64, 66, 15, 0, 0, 0, 0, 0, 1, 2, 3, 4, 5, 6, 7, 8]
      [102, 6, 61, 18, 1, 218, 235, 234]
      ⟨none, some .invalidAccountData⟩) = [] :=
  c6_fee_rolled_back (List.replicate 32 9)
    [⟨List.replicate 32 0, false, true, 0, (5 : Byte) :: List.replicate 32 2⟩,
     ⟨List.replicate 32 1, false, false, 0, []⟩,
     ⟨List.replicate 32 3, true, true, 60000, []⟩,
     ⟨List.replicate 32 2, false, true, 0, []⟩,
     ⟨List.replicate 32 7, false, true, 0, []⟩]
    [64, 66, 15, 0, 0, 0, 0, 0, 1, 2, 3, 4, 5, 6, 7, 8]
    [102, 6, 61, 18, 1, 218, 235, 234]
    ⟨none, some .invalidAccountData⟩ .invalidAccountData rfl rfl

/-- C9: a trade payload whose opcode-stripped length is at least 8 but below
16 passes the length check, so the call does not fail with MalformedPayload;
when every precondition holds and the fee transfer succeeds, the rewrite of
bytes [8:16) of the rebuilt payload indexes out of bounds and the operation
panics after issuing the fee transfer, instead of returning an error. -/
theorem c9_midlength_payload_panics (pid : Pubkey) (a s p r : AccountInfo)
    (rest : List AccountInfo) (d sel : List Byte) (env : Env)
    (cfg : TradeFeeState) (hsel : sel.length = 8)
    (h8 : 8 ≤ d.length) (h16 : d.length < 16)
    (hsig : p.is_signer = true)
    (hde : TradeFeeState.tryFromSlice a.data = some cfg)
    (hrk : r.key = cfg.fee_wallet)
    (hrate : cfg.fee_rate.val ≤ 100)
    (hbal : ¬ p.lamports < wrappingFee (u64FromLeBytes (d.take 8)) cfg.fee_rate.val)
    (htr : env.transferResult = none) :
    (∀ effs, processWithFee pid (a :: s :: p :: r :: rest) d sel env ≠
      .fail .invalidInstructionData effs) ∧
    processWithFee pid (a :: s :: p :: r :: rest) d sel env =
      .panicked [Effect.transfer p.key r.key
        (wrappingFee (u64FromLeBytes (d.take 8)) cfg.fee_rate.val)] := by
  have hfee_le : wrappingFee (u64FromLeBytes (d.take 8)) cfg.fee_rate.val ≤
      u64FromLeBytes (d.take 8) := wrappingFee_le _ _ hrate
  have hsub : checkedSub (u64FromLeBytes (d.take 8))
      (wrappingFee (u64FromLeBytes (d.take 8)) cfg.fee_rate.val) =
      some (u64FromLeBytes (d.take 8) -
        wrappingFee (u64FromLeBytes (d.take 8)) cfg.fee_rate.val) := by
    unfold checkedSub
    rw [if_pos hfee_le]
  have hlt : (sel ++ d.drop 8).length < 16 := by
    simp only [List.length_append, List.length_drop, hsel]
    omega
  have hpanic := pwfPanic pid a s p r rest d sel env cfg _ hsig hde hrk
    (by omega) hsub hbal htr hlt
  refine ⟨?_, hpanic⟩
  intro effs hcontra
  rw [hpanic] at hcontra
  exact absurd hcontra (by simp)

/-- C9 witness: a 12-byte payload (amount = 1000000, four trailing bytes)
with fee_rate 5 and a sufficiently funded signer panics after issuing the
50000-lamport fee transfer. -/
theorem c9_midlength_payload_panics_witness :
    (∀ effs, processWithFee (List.replicate 32 9)
      [⟨List.replicate 32 0, false, true, 0, (5 : Byte) :: List.replicate 32 2⟩,
       ⟨List.replicate 32 1, false, false, 0, []⟩,
       ⟨List.replicate 32 3, true, true, 60000, []⟩,
       ⟨List.replicate 32 2, false, true, 0, []⟩]
      [64, 66, 15, 0, 0, 0, 0, 0, 1, 2, 3, 4]
      [102, 6, 61, 18, 1, 218, 235, 234] ⟨none, none⟩ ≠
      .fail .invalidInstructionData effs) ∧
    processWithFee (List.replicate 32 9)
      [⟨List.replicate 32 0, false, true, 0, (5 : Byte) :: List.replicate 32 2⟩,
       ⟨List.replicate 32 1, false, false, 0, []⟩,
       ⟨List.replicate 32 3, true, true, 60000, []⟩,
       ⟨List.replicate 32 2, false, true, 0, []⟩]
      [64, 66, 15, 0, 0, 0, 0, 0, 1, 2, 3, 4]
      [102, 6, 61, 18, 1, 218, 235, 234] ⟨none, none⟩ =
      .panicked [Effect.transfer (List.replicate 32 3) (List.replicate 32 2)
        (wrappingFee (u64FromLeBytes (([64, 66, 15, 0, 0, 0, 0, 0, 1, 2, 3, 4] :
          List Byte).take 8)) ((5 : Byte) : Byte).val)] :=
  c9_midlength_payload_panics (List.replicate 32 9)
    ⟨List.replicate 32 0, false, true, 0, (5 : Byte) :: List.replicate 32 2⟩
    ⟨List.replicate 32 1, false, false, 0, []⟩
    ⟨List.replicate 32 3, true, true, 60000, []⟩
    ⟨List.replicate 32 2, false, true, 0, []⟩ []
    [64, 66, 15, 0, 0, 0, 0, 0, 1, 2, 3, 4]
    [102, 6, 61, 18, 1, 218, 235, 234] ⟨none, none⟩
    ⟨5, List.replicate 32 2⟩ (by decide) (by decide) (by decide) (by decide)
    (by decide) (by decide) (by decide) (by decide) rfl

/-- C5: RotateFeeWallet fails with MalformedPayload when the payload is
shorter than 32 bytes, MissingAuthorization when the admin is not a signer,
MalformedState when the config does not deserialize, AuthorizationDenied when
the admin is not the currently stored fee wallet — checked in that order —
and otherwise succeeds, storing a record whose fee wallet is the supplied
32-byte identity, so the old wallet loses rotation authority (the stored
wallet the next authority check compares against is the new one) and the new
wallet gains it. -/
theorem c5_rotate_fee_wallet (c ad : AccountInfo) (rest : List AccountInfo)
    (payload : List Byte) :
    (payload.length < 32 →
      setProtocolFeeWallet (c :: ad :: rest) payload =
        .fail .invalidInstructionData []) ∧
    (32 ≤ payload.length → ad.is_signer = false →
      setProtocolFeeWallet (c :: ad :: rest) payload =
        .fail .missingRequiredSignature []) ∧
    (32 ≤ payload.length → ad.is_signer = true →
      ProtocolConfig.tryFromSlice c.data = none →
      setProtocolFeeWallet (c :: ad :: rest) payload = .fail .borshIoError []) ∧
    (∀ cfg, 32 ≤ payload.length → ad.is_signer = true →
      ProtocolConfig.tryFromSlice c.data = some cfg →
      ad.key ≠ cfg.protocol_fee_wallet →
      setProtocolFeeWallet (c :: ad :: rest) payload = .fail .illegalOwner []) ∧
    (∀ cfg, 32 ≤ payload.length → ad.is_signer = true →
      ProtocolConfig.tryFromSlice c.data = some cfg →
      ad.key = cfg.protocol_fee_wallet →
      setProtocolFeeWallet (c :: ad :: rest) payload =
        .ok (cfg.protocol_fee_rate :: payload.take 32) ∧
      ProtocolConfig.tryFromSlice (cfg.protocol_fee_rate :: payload.take 32) =
        some ⟨cfg.protocol_fee_rate, payload.take 32⟩) := by
  refine ⟨?_, ?_, ?_, ?_, ?_⟩
  · intro hlen
    exact spfwShortPayload c ad rest payload hlen
  · intro hlen hsig
    exact spfwNotSigner c ad rest payload (by omega) hsig
  · intro hlen hsig hde
    exact spfwBadConfig c ad rest payload (by omega) hsig hde
  · intro cfg hlen hsig hde hkey
    exact spfwNotAdmin c ad rest payload cfg (by omega) hsig hde hkey
  · intro cfg hlen hsig hde hkey
    refine ⟨spfwOk c ad rest payload cfg (by omega) hsig hde hkey, ?_⟩
    have ht : (payload.take 32).length = 32 := by
      simp only [List.length_take]
      omega
    simp [ProtocolConfig.tryFromSlice, ht]

/-- C5 witness: the stored wallet 32 × 2 signs a rotation to 32 × 4 with a
32-byte payload; the call succeeds and the stored record becomes
{rate 5, wallet 32 × 4}. -/
theorem c5_rotate_fee_wallet_witness :
    setProtocolFeeWallet
      [⟨List.replicate 32 0, false, true, 0, (5 : Byte) :: List.replicate 32 2⟩,
       ⟨List.replicate 32 2, true, true, 0, []⟩]
      (List.replicate 32 4) =
      .ok (((5 : Byte) : Byte) :: (List.replicate 32 (4 : Byte)).take 32) ∧
    ProtocolConfig.tryFromSlice
        (((5 : Byte) : Byte) :: (List.replicate 32 (4 : Byte)).take 32) =
      some ⟨5, (List.replicate 32 (4 : Byte)).take 32⟩ :=
  (c5_rotate_fee_wallet
    ⟨List.replicate 32 0, false, true, 0, (5 : Byte) :: List.replicate 32 2⟩
    ⟨List.replicate 32 2, true, true, 0, []⟩ [] (List.replicate 32 4)).2.2.2.2
    ⟨5, List.replicate 32 2⟩ (by decide) (by decide) (by decide) (by decide)

/-- C8: every successful RotateFeeWallet call leaves the stored fee_rate
unchanged — the persisted record after the call is the record before it with
only the wallet field replaced by the supplied identity. -/
theorem c8_rotation_preserves_rate (c ad : AccountInfo) (rest : List AccountInfo)
    (payload newData : List Byte)
    (h : setProtocolFeeWallet (c :: ad :: rest) payload = .ok newData) :
    ∃ cfg, ProtocolConfig.tryFromSlice c.data = some cfg ∧
      ProtocolConfig.tryFromSlice newData =
        some ⟨cfg.protocol_fee_rate, payload.take 32⟩ := by
  by_cases hlen : payload.length < 32
  · rw [spfwShortPayload c ad rest payload hlen] at h
    exact absurd h (by simp)
  by_cases hsig : ad.is_signer = true
  case neg =>
    rw [spfwNotSigner c ad rest payload hlen (by simpa using hsig)] at h
    exact absurd h (by simp)
  cases hde : ProtocolConfig.tryFromSlice c.data with
  | none =>
    rw [spfwBadConfig c ad rest payload hlen hsig hde] at h
    exact absurd h (by simp)
  | some cfg =>
    by_cases hkey : ad.key = cfg.protocol_fee_wallet
    case neg =>
      rw [spfwNotAdmin c ad rest payload cfg hlen hsig hde hkey] at h
      exact absurd h (by simp)
    rw [spfwOk c ad rest payload cfg hlen hsig hde hkey] at h
    injection h with h'
    have ht : (payload.take 32).length = 32 := by
      simp only [List.length_take]
      omega
    refine ⟨cfg, rfl, ?_⟩
    rw [← h']
    simp [ProtocolConfig.tryFromSlice, ht]

/-- C8 witness: the successful rotation of the C5 scenario preserves the
stored fee_rate 5. -/
theorem c8_rotation_preserves_rate_witness :
    ∃ cfg, ProtocolConfig.tryFromSlice ((5 : Byte) :: List.replicate 32 2) =
        some cfg ∧
      ProtocolConfig.tryFromSlice ((5 : Byte) :: List.replicate 32 4) =
        some ⟨cfg.protocol_fee_rate, (List.replicate 32 (4 : Byte)).take 32⟩ :=
  c8_rotation_preserves_rate
    ⟨List.replicate 32 0, false, true, 0, (5 : Byte) :: List.replicate 32 2⟩
    ⟨List.replicate 32 2, true, true, 0, []⟩ [] (List.replicate 32 4)
    ((5 : Byte) :: List.replicate 32 4) (by decide)

end SolTradeRouter
